import Mathlib

/-!
Shallow embedding of the computational core of the Medical Store Management
System (a React/Supabase inventory dashboard): the entity types from
`src/types.ts`, the dashboard metrics function `calculateDashboardStats`,
the period-scoped analytics computation `analyticsData` from
`src/components/Analytics.tsx`, and the sale-transaction pipeline `addSale`
(with `updateProduct` / `updateClient`) from `src/hooks/useDatabase.ts`,
plus the client edit form submission from the Clients component.

Modelling conventions:
* ISO-8601 timestamp strings are modelled as integer epoch milliseconds
  (`Int`); the source always compares them through `new Date(_).getTime()`,
  which is order-isomorphic to this encoding.
* monetary `number` fields are modelled as rationals (`Rat`);
* `quantity` is a natural number (the database schema constrains it to be a
  positive integer), while `currentStock` is an integer, since the stock
  decrement performs no clamping and may drive it negative;
* JavaScript `Map` accumulators are modelled as association lists in
  insertion order (`Map.set` updates an existing key in place, otherwise
  appends), and `Array.prototype.sort` (stable in modern engines) is
  modelled by the stable `List.insertionSort`.
-/

inductive PaymentMethod where
  | cash
  | card
  | digital
deriving Repr, DecidableEq

structure Product where
  id : String
  name : String
  category : String
  manufacturer : String
  batchNumber : String
  expiryDate : Int
  currentStock : Int
  minStockLevel : Int
  unitPrice : Rat
  sellingPrice : Rat
  description : String
  createdAt : Int
  updatedAt : Int
deriving Repr, DecidableEq

structure SaleItem where
  productId : String
  productName : String
  quantity : Nat
  unitPrice : Rat
  totalPrice : Rat
deriving Repr, DecidableEq

structure Sale where
  id : String
  clientId : String
  clientName : String
  items : List SaleItem
  totalAmount : Rat
  discount : Rat
  finalAmount : Rat
  paymentMethod : PaymentMethod
  createdAt : Int
deriving Repr, DecidableEq

structure Client where
  id : String
  name : String
  email : String
  phone : String
  address : String
  totalPurchases : Rat
  lastPurchaseDate : Int
  createdAt : Int
deriving Repr, DecidableEq

/-- A stable descending sort by a key, modelling `Array.prototype.sort` with a
comparator of the form `(a, b) => key(b) - key(a)` (stable per the ECMAScript
specification; `List.insertionSort` is stable with the same tie behaviour). -/
def sortByDesc {α β : Type} [LinearOrder β] (key : α → β) (l : List α) : List α :=
  @List.insertionSort α (fun a b => key b ≤ key a) (fun _ _ => inferInstance) l

/-- One entry of the dashboard's `topProducts` output. -/
structure TopProductEntry where
  productId : String
  productName : String
  quantitySold : Nat
  revenue : Rat
deriving Repr, DecidableEq

/-- One step of the dashboard's `productSales` Map accumulation:
`productSales.get(id) || {name, 0, 0}` followed by `productSales.set(id, …)`.
A `Map.set` on a present key updates it in place (keeping insertion order),
otherwise the new key is appended; the display name is overwritten with the
current item's `productName` each time, so the last-seen item's name wins. -/
def upsertTopProduct (it : SaleItem) : List TopProductEntry → List TopProductEntry
  | [] => [⟨it.productId, it.productName, it.quantity, it.totalPrice⟩]
  | e :: es =>
      if e.productId = it.productId then
        ⟨e.productId, it.productName, e.quantitySold + it.quantity,
          e.revenue + it.totalPrice⟩ :: es
      else
        e :: upsertTopProduct it es

/-- The grouping of a stream of sale items by `productId`
(the `sales.forEach(sale => sale.items.forEach(…))` loop). -/
def groupItems (items : List SaleItem) : List TopProductEntry :=
  items.foldl (fun m it => upsertTopProduct it m) []

/-- The calendar facts `calculateDashboardStats` reads off `new Date()`:
the instants of local midnight (`today`), the first of the current month
(`thisMonth`) and Jan 1 of the current year (`thisYear`), together with the
1-based day of month (`now.getDate()`) and the zero-based month index
(`now.getMonth()`). -/
structure NowInfo where
  time : Int
  todayStart : Int
  monthStart : Int
  yearStart : Int
  dayOfMonth : Nat
  monthIndex : Nat
deriving Repr, DecidableEq

structure DashboardStats where
  totalProducts : Nat
  lowStockProducts : Nat
  totalSales : Rat
  totalClients : Nat
  todaySales : Rat
  avgDailySales : Rat
  avgMonthlySales : Rat
  avgYearlySales : Rat
  recentSales : List Sale
  topProducts : List TopProductEntry
deriving Repr, DecidableEq

/-- `calculateDashboardStats` from the dashboard utils module.  The source
computes `recentSales` with `sales.sort(…)`; `Array.prototype.sort` sorts
**in place**, so the caller's `sales` array is reordered, and the
`topProducts` accumulation — which runs after that line — iterates the
already-sorted array.  The embedding therefore returns the stats together
with the post-call contents of the caller's `sales` array. -/
def calculateDashboardStats (products : List Product) (sales : List Sale)
    (clients : List Client) (now : NowInfo) : DashboardStats × List Sale :=
  let todaySalesL := sales.filter (fun s => decide (now.todayStart ≤ s.createdAt))
  let monthSalesL := sales.filter (fun s => decide (now.monthStart ≤ s.createdAt))
  let yearSalesL := sales.filter (fun s => decide (now.yearStart ≤ s.createdAt))
  let totalSales := (sales.map Sale.finalAmount).sum
  let todayTotal := (todaySalesL.map Sale.finalAmount).sum
  let monthTotal := (monthSalesL.map Sale.finalAmount).sum
  let yearTotal := (yearSalesL.map Sale.finalAmount).sum
  let daysInMonth := now.dayOfMonth
  let avgDailySales := if 0 < daysInMonth then monthTotal / (daysInMonth : Rat) else 0
  let avgMonthlySales :=
    if 0 < now.monthIndex then yearTotal / ((now.monthIndex : Rat) + 1) else yearTotal
  let avgYearlySales := yearTotal
  let lowStockProducts :=
    (products.filter (fun p => decide (p.currentStock ≤ p.minStockLevel))).length
  let sortedSales := sortByDesc Sale.createdAt sales
  let recentSales := sortedSales.take 5
  let topProducts :=
    (sortByDesc TopProductEntry.quantitySold
      (groupItems (sortedSales.flatMap Sale.items))).take 5
  (⟨products.length, lowStockProducts, totalSales, clients.length, todayTotal,
    avgDailySales, avgMonthlySales, avgYearlySales, recentSales, topProducts⟩,
   sortedSales)

/-- `1000 * 60 * 60 * 24`, the millisecond-per-day constant of the source. -/
def msPerDay : Int := 86400000

/-- `Math.max(1, Math.ceil((endDate.getTime() - startDate.getTime()) / 86400000))`
from `analyticsData`; `Math.ceil` of the real division is the rational
ceiling. -/
def daysInRange (startDate endDate : Int) : Int :=
  max 1 ⌈(((endDate - startDate : Int) : Rat) / (msPerDay : Rat))⌉

/-- One entry of the analytics per-product aggregation (with profit). -/
structure ProductAgg where
  productId : String
  name : String
  quantity : Nat
  revenue : Rat
  profit : Rat
deriving Repr, DecidableEq

/-- One entry of the analytics per-client aggregation. -/
structure ClientAgg where
  clientId : String
  name : String
  orders : Nat
  revenue : Rat
  avgOrder : Rat
deriving Repr, DecidableEq

/-- One step of the analytics `productSales` Map accumulation; the profit
contribution of an item is `(item.unitPrice - product.unitPrice) * quantity`
when the product is found by id in the current product list, and `0`
otherwise. -/
def upsertProductAgg (products : List Product) (it : SaleItem) :
    List ProductAgg → List ProductAgg
  | [] =>
      [⟨it.productId, it.productName, it.quantity, it.totalPrice,
        match products.find? (fun p => p.id == it.productId) with
        | some p => (it.unitPrice - p.unitPrice) * (it.quantity : Rat)
        | none => 0⟩]
  | e :: es =>
      if e.productId = it.productId then
        ⟨e.productId, it.productName, e.quantity + it.quantity,
          e.revenue + it.totalPrice,
          e.profit +
            match products.find? (fun p => p.id == it.productId) with
            | some p => (it.unitPrice - p.unitPrice) * (it.quantity : Rat)
            | none => 0⟩ :: es
      else
        e :: upsertProductAgg products it es

/-- One step of the analytics `clientPurchases` Map accumulation; `avgOrder`
is recomputed as `newData.revenue / newData.orders` after each step. -/
def upsertClientAgg (s : Sale) : List ClientAgg → List ClientAgg
  | [] => [⟨s.clientId, s.clientName, 1, s.finalAmount, s.finalAmount / 1⟩]
  | e :: es =>
      if e.clientId = s.clientId then
        ⟨e.clientId, s.clientName, e.orders + 1, e.revenue + s.finalAmount,
          (e.revenue + s.finalAmount) / ((e.orders : Rat) + 1)⟩ :: es
      else
        e :: upsertClientAgg s es

structure AnalyticsData where
  totalRevenue : Rat
  avgSaleValue : Rat
  avgDailyRevenue : Rat
  avgWeeklyRevenue : Rat
  avgMonthlyRevenue : Rat
  avgYearlyRevenue : Rat
  filteredSales : List Sale
  topProducts : List ProductAgg
  topClients : List ClientAgg
deriving Repr, DecidableEq

/-- The `analyticsData` computation of `Analytics.tsx` for a period of `days`
days (`days ∈ {7, 30, 90, 365}` in the UI) ending at the instant `now`.
The calendar-label monthly-trend grouping (`monthlyTrends`, a presentation
aggregation by "YYYY-MM" string) is not embedded; no claim concerns it. -/
def analyticsData (sales : List Sale) (products : List Product)
    (days : Nat) (now : Int) : AnalyticsData :=
  let startDate := now - (days : Int) * msPerDay
  let endDate := now
  let filteredSales := sales.filter
    (fun s => decide (startDate ≤ s.createdAt) && decide (s.createdAt ≤ endDate))
  let totalRevenue := (filteredSales.map Sale.finalAmount).sum
  let avgSaleValue :=
    if 0 < filteredSales.length then totalRevenue / (filteredSales.length : Rat) else 0
  let d := daysInRange startDate endDate
  let avgDailyRevenue := totalRevenue / (d : Rat)
  let avgWeeklyRevenue := avgDailyRevenue * 7
  let avgMonthlyRevenue := avgDailyRevenue * 30
  let avgYearlyRevenue := avgDailyRevenue * 365
  let prodAgg := filteredSales.foldl
    (fun m s => s.items.foldl (fun m it => upsertProductAgg products it m) m) []
  let topProducts := (sortByDesc ProductAgg.revenue prodAgg).take 10
  let clientAgg := filteredSales.foldl (fun m s => upsertClientAgg s m) []
  let topClients := (sortByDesc ClientAgg.revenue clientAgg).take 10
  ⟨totalRevenue, avgSaleValue, avgDailyRevenue, avgWeeklyRevenue,
    avgMonthlyRevenue, avgYearlyRevenue, filteredSales, topProducts, topClients⟩

/-- The in-memory state held by the `useDatabase` hook: the `products`,
`clients` and `sales` React state arrays. -/
structure DB where
  products : List Product
  clients : List Client
  sales : List Sale
deriving Repr, DecidableEq

/-- The argument of `addSale` (`Omit<Sale, 'id' | 'createdAt'>`): totals are
pre-computed by the caller. -/
structure SaleInput where
  clientId : String
  clientName : String
  items : List SaleItem
  totalAmount : Rat
  discount : Rat
  finalAmount : Rat
  paymentMethod : PaymentMethod
deriving Repr, DecidableEq

/-- Outcomes of the persistence calls issued by one `addSale` invocation:
whether `salesService.create` succeeds, the outcomes of the successive
`productService.update` calls (entries beyond the list default to success),
and whether `clientService.update` succeeds. -/
structure Oracle where
  createOk : Bool
  itemOks : List Bool
  clientOk : Bool
deriving Repr, DecidableEq

/-- The oracle in which every persistence call succeeds. -/
def allOk : Oracle := ⟨true, [], true⟩

/-- The `setProducts(prev => prev.map(p => p.id === id ? updatedProduct : p))`
step performed by `updateProduct` for a stock update: the product row with
the given id gets `currentStock` replaced (ids and order are untouched). -/
def setStock (ps : List Product) (pid : String) (newStock : Int) : List Product :=
  ps.map (fun p => if p.id = pid then { p with currentStock := newStock } else p)

/-- The persisted sale returned by `salesService.create`: the input data with
the database-assigned `id` and `created_at`, and the original item list. -/
def mkNewSale (s : SaleInput) (newId : String) (newCreatedAt : Int) : Sale :=
  ⟨newId, s.clientId, s.clientName, s.items, s.totalAmount, s.discount,
    s.finalAmount, s.paymentMethod, newCreatedAt⟩

/-- The per-item stock-update loop of `addSale`.  `snapshot` is the `products`
state captured by the closure when `addSale` was invoked (the array that
`products.find` consults for every item), `cur` the evolving state threaded
by the functional `setProducts` updates, and `oks` the outcomes of the
successive `productService.update` calls.  An item whose product is not
found issues no call; a failing call makes the whole loop abort by a thrown
rejection, leaving the updates already applied in place. -/
def runStockUpdates (snapshot : List Product) :
    List SaleItem → List Bool → List Product → Except (List Product) (List Product)
  | [], _, cur => .ok cur
  | it :: rest, oks, cur =>
      match snapshot.find? (fun p => p.id == it.productId) with
      | none => runStockUpdates snapshot rest oks cur
      | some p =>
          if oks.headD true then
            runStockUpdates snapshot rest oks.tail
              (setStock cur it.productId (p.currentStock - (it.quantity : Int)))
          else
            .error cur

/-- `addSale` from `useDatabase.ts`.  Sequentially: (1) persist the sale;
(2) prepend it to the in-memory sales; (3) for every item, look the product
up in the call-time `products` snapshot and, if found, issue a stock update
to `currentStock - quantity`; (4) look the client up and, if found, issue an
update adding `finalAmount` to `totalPurchases` and stamping
`lastPurchaseDate` with the persisted sale's `createdAt`; (5) return the
persisted sale.  Any rejected persistence call aborts the remaining steps
and rejects the whole operation (`.error` carries the in-memory state left
behind); there is no rollback. -/
def addSale (db : DB) (s : SaleInput) (newId : String) (newCreatedAt : Int)
    (oc : Oracle) : Except DB (DB × Sale) :=
  if oc.createOk then
    let newSale := mkNewSale s newId newCreatedAt
    let salesAfter := newSale :: db.sales
    match runStockUpdates db.products s.items oc.itemOks db.products with
    | .error ps => .error ⟨ps, db.clients, salesAfter⟩
    | .ok ps =>
        match db.clients.find? (fun c => c.id == s.clientId) with
        | some c =>
            if oc.clientOk then
              let updated : Client :=
                { c with totalPurchases := c.totalPurchases + s.finalAmount,
                         lastPurchaseDate := newCreatedAt }
              .ok (⟨ps, db.clients.map (fun x => if x.id = c.id then updated else x),
                    salesAfter⟩, newSale)
            else
              .error ⟨ps, db.clients, salesAfter⟩
        | none => .ok (⟨ps, db.clients, salesAfter⟩, newSale)
  else
    .error db

/-- The stock updates `addSale` issues, stated per item as in the spec: each
item whose `productId` is found in the call-time product snapshot yields one
update setting that product's stock to the snapshot value minus the item's
quantity (plain integer subtraction, no clamping at zero); items whose
product is absent yield nothing. -/
def stockUpdateEvents (snapshot : List Product) (items : List SaleItem) :
    List (String × Int) :=
  items.filterMap (fun it =>
    (snapshot.find? (fun p => p.id == it.productId)).map
      (fun p => (it.productId, p.currentStock - (it.quantity : Int))))

/-- Application of a list of stock updates to the product state, in order. -/
def applyStockUpdates (cur : List Product) (evs : List (String × Int)) :
    List Product :=
  evs.foldl (fun acc ev => setStock acc ev.1 ev.2) cur

/-- How many of the given items issue a `productService.update` call: exactly
those whose `productId` is found in the call-time product snapshot (the
items whose product is missing issue no call and consume no outcome). -/
def countFound (snapshot : List Product) (items : List SaleItem) : Nat :=
  (items.filter (fun it =>
    (snapshot.find? (fun p => p.id == it.productId)).isSome)).length

/-- `Clients.handleSubmit` in the Clients component, edit path: the form data
is turned into `clientData` with `totalPurchases: 0` and
`lastPurchaseDate: new Date().toISOString()` regardless of the stored values,
and `onUpdateClient(editingClient.id, clientData)` replaces the stored client
by id with the service result (`clientService.update` forwards
`totalPurchases` because `0 !== undefined`; the string fields are assumed
non-empty, as the form inputs are `required`). -/
def clientsHandleSubmitEdit (clients : List Client) (editingId : String)
    (name email phone address : String) (now : Int) : List Client :=
  clients.map (fun c =>
    if c.id = editingId then
      { c with name := name, email := email, phone := phone, address := address,
               totalPurchases := 0, lastPurchaseDate := now }
    else c)

/-- Sum of `finalAmount` over a client's sales (what `totalPurchases` is
supposed to track; the Clients component's own `getClientStats` computes
exactly this from the sale history for display). -/
def clientSalesTotal (sales : List Sale) (cid : String) : Rat :=
  ((sales.filter (fun s => s.clientId == cid)).map Sale.finalAmount).sum

/-- The year-to-date revenue `yearTotal` of the dashboard. -/
def yearToDateTotal (sales : List Sale) (now : NowInfo) : Rat :=
  ((sales.filter (fun s => decide (now.yearStart ≤ s.createdAt))).map
    Sale.finalAmount).sum

/-- The all-zero / all-empty dashboard summary. -/
def emptyDashboardStats : DashboardStats := ⟨0, 0, 0, 0, 0, 0, 0, 0, [], []⟩

/-- Lookup in a `Map`-as-association-list accumulator (`Map.get`). -/
def getAgg (m : List TopProductEntry) (pid : String) : Option TopProductEntry :=
  m.find? (fun e => e.productId == pid)

/-- Concrete fixtures used to evaluate the embedded code on explicit inputs. -/
def prodA : Product :=
  ⟨"p1", "Paracetamol", "Analgesic", "Acme", "B1", 1000, 10, 2, 3, 5, "", 0, 0⟩

def prodB : Product :=
  ⟨"p2", "Ibuprofen", "Analgesic", "Acme", "B2", 1000, 8, 2, 2, 4, "", 0, 0⟩

def itemA : SaleItem := ⟨"p1", "Paracetamol", 2, 10, 20⟩

def itemB : SaleItem := ⟨"p2", "Ibuprofen", 1, 5, 5⟩

def clientA : Client := ⟨"c1", "Ann", "ann@example.com", "123", "addr", 23, 5, 0⟩

def saleW : Sale := ⟨"s1", "c1", "Ann", [itemA, itemB], 25, 2, 23, .cash, 5⟩

def saleInputW : SaleInput := ⟨"c1", "Ann", [itemA, itemB], 25, 2, 23, .cash⟩

def dbW : DB := ⟨[prodA, prodB], [clientA], []⟩

/-- The in-memory state left behind when, starting from `dbW`, the sale is
persisted, the first stock update (product "p1", 10 − 2 = 8) succeeds and
the second stock update fails: the new sale is already prepended and the
first update already applied, with no rollback. -/
def dbFail : DB :=
  ⟨[{ prodA with currentStock := 8 }, prodB], [clientA],
    [mkNewSale saleInputW "s9" 7]⟩

/-- Two items of one sale referencing the same product id, with different
quantities (for the duplicate-product-id scenario). -/
def itemDup1 : SaleItem := ⟨"p1", "Paracetamol", 2, 5, 10⟩

def itemDup2 : SaleItem := ⟨"p1", "Paracetamol", 3, 5, 15⟩

def saleInputDup : SaleInput := ⟨"c9", "Zed", [itemDup1, itemDup2], 25, 0, 25, .card⟩

def dbDup : DB := ⟨[prodA], [], []⟩

def saleOld : Sale := ⟨"s2", "c1", "Ann", [], 7, 0, 7, .cash, 1⟩

def saleNew : Sale := ⟨"s3", "c1", "Ann", [], 9, 0, 9, .card, 2⟩

def nowPlain : NowInfo := ⟨100, 0, 0, 0, 15, 3⟩

/-- An instant whose zero-based month index is `0` (some day in January). -/
def nowJan : NowInfo := ⟨100, 90, 80, 0, 15, 0⟩

/-- A sale created within the current year relative to `nowJan`. -/
def saleJan : Sale := ⟨"s4", "c1", "Ann", [], 10, 0, 10, .cash, 50⟩

/-- An instant whose `getDate()` is zero (the defensive-guard branch of
`avgDailySales`; cannot occur for a real calendar date). -/
def nowDay0 : NowInfo := ⟨0, 0, 0, 0, 0, 1⟩

theorem sortByDesc_perm {α β : Type} [LinearOrder β] (key : α → β) (l : List α) :
    (sortByDesc key l).Perm l :=
  List.perm_insertionSort _ l

theorem sortByDesc_pairwise {α β : Type} [LinearOrder β] (key : α → β) (l : List α) :
    (sortByDesc key l).Pairwise (fun a b => key b ≤ key a) := by
  haveI : IsTotal α (fun a b => key b ≤ key a) := ⟨fun a b => le_total (key b) (key a)⟩
  haveI : IsTrans α (fun a b => key b ≤ key a) :=
    ⟨fun _ _ _ hab hbc => le_trans hbc hab⟩
  exact List.sorted_insertionSort _ l

/-- C5: for every sale list, product list and period selection in
{7, 30, 90, 365} days, the analytics outputs satisfy exactly
`avgDailyRevenue = totalRevenue / daysInRange` with
`daysInRange = max(1, ceil((end − start) in days))`, and
`avgWeeklyRevenue = 7 × avgDailyRevenue`,
`avgMonthlyRevenue = 30 × avgDailyRevenue`,
`avgYearlyRevenue = 365 × avgDailyRevenue`. -/
theorem analytics_average_invariant (sales : List Sale) (products : List Product)
    (days : Nat) (now : Int) (_h : days ∈ ([7, 30, 90, 365] : List Nat)) :
    (analyticsData sales products days now).avgDailyRevenue =
      (analyticsData sales products days now).totalRevenue /
        ((daysInRange (now - (days : Int) * msPerDay) now : Int) : Rat) ∧
    (analyticsData sales products days now).avgWeeklyRevenue =
      7 * (analyticsData sales products days now).avgDailyRevenue ∧
    (analyticsData sales products days now).avgMonthlyRevenue =
      30 * (analyticsData sales products days now).avgDailyRevenue ∧
    (analyticsData sales products days now).avgYearlyRevenue =
      365 * (analyticsData sales products days now).avgDailyRevenue := by
  refine ⟨rfl, ?_, ?_, ?_⟩ <;> simp [analyticsData, mul_comm]

theorem analytics_average_invariant_witness :
    (analyticsData [] [] 7 0).avgDailyRevenue =
      (analyticsData [] [] 7 0).totalRevenue /
        ((daysInRange (0 - ((7 : Nat) : Int) * msPerDay) 0 : Int) : Rat) ∧
    (analyticsData [] [] 7 0).avgWeeklyRevenue =
      7 * (analyticsData [] [] 7 0).avgDailyRevenue ∧
    (analyticsData [] [] 7 0).avgMonthlyRevenue =
      30 * (analyticsData [] [] 7 0).avgDailyRevenue ∧
    (analyticsData [] [] 7 0).avgYearlyRevenue =
      365 * (analyticsData [] [] 7 0).avgDailyRevenue :=
  analytics_average_invariant [] [] 7 0 (by decide)

/-- C9 (amended): `avgMonthlySales` equals the year-to-date total divided by
`monthIndex + 1` — unconditionally, because at month index 0 the special
branch returns the yearly total, which coincides with the general formula
since dividing by `0 + 1 = 1` is the identity.  The second conjunct states
the special branch as written. -/
theorem avgMonthlySales_formula (products : List Product) (sales : List Sale)
    (clients : List Client) (now : NowInfo) :
    (calculateDashboardStats products sales clients now).1.avgMonthlySales =
      yearToDateTotal sales now / ((now.monthIndex : Rat) + 1) ∧
    (now.monthIndex = 0 →
      (calculateDashboardStats products sales clients now).1.avgMonthlySales =
        yearToDateTotal sales now) := by
  constructor
  · by_cases h : 0 < now.monthIndex
    · simp [calculateDashboardStats, yearToDateTotal, h]
    · have h0 : now.monthIndex = 0 := Nat.eq_zero_of_not_pos h
      simp [calculateDashboardStats, yearToDateTotal, h0]
  · intro h0
    simp [calculateDashboardStats, yearToDateTotal, h0]

theorem avgMonthlySales_formula_witness :
    (calculateDashboardStats [] [saleJan] [] nowJan).1.avgMonthlySales =
      yearToDateTotal [saleJan] nowJan :=
  (avgMonthlySales_formula [] [saleJan] [] nowJan).2 rfl

/-- C9 (counterexample to "observably distinct"): at a concrete January
instant (zero-based month index 0) with a nonzero year-to-date total, the
special branch that the code takes returns exactly the value of the general
formula `yearTotal / (monthIndex + 1)` — dividing by one changes nothing —
so the branch is not observable behavior distinct from the general formula. -/
theorem avgMonthlySales_month0_coincides :
    nowJan.monthIndex = 0 ∧
    yearToDateTotal [saleJan] nowJan = 10 ∧
    (calculateDashboardStats [] [saleJan] [] nowJan).1.avgMonthlySales =
      yearToDateTotal [saleJan] nowJan / ((nowJan.monthIndex : Rat) + 1) := by
  refine ⟨rfl, ?_, ?_⟩
  · norm_num [yearToDateTotal, nowJan, saleJan, List.filter_cons]
  · norm_num [calculateDashboardStats, yearToDateTotal, nowJan, saleJan,
      List.filter_cons]

/-- C7 (code evaluated at the failing input): `calculateDashboardStats` does
not leave the input `sales` collection unchanged — the in-place
`Array.prototype.sort` reorders the caller's array (here from
createdAt-ascending to createdAt-descending), contradicting the claimed
purity/no-mutation property. -/
theorem dashboard_mutates_sales_order :
    (calculateDashboardStats [] [saleOld, saleNew] [] nowPlain).2 =
      [saleNew, saleOld] ∧
    ([saleNew, saleOld] : List Sale) ≠ [saleOld, saleNew] := by
  constructor
  · decide
  · decide

/-- C4 (code evaluated at the failing input): a client whose
`totalPurchases` correctly equals the sum of their sales' `finalAmount`
(23) loses that invariant when edited through the Clients form — the edit
submission resets `totalPurchases` to 0 and `lastPurchaseDate` to the edit
instant, while the client's sale history is untouched. -/
theorem clientEdit_resets_totalPurchases :
    clientA.totalPurchases = clientSalesTotal [saleW] clientA.id ∧
    clientSalesTotal [saleW] clientA.id = 23 ∧
    (clientsHandleSubmitEdit [clientA] "c1" "Ann" "ann@example.com" "999" "addr" 9).map
        Client.totalPurchases = [0] ∧
    (0 : Rat) ≠ 23 := by
  refine ⟨?_, ?_, ?_, ?_⟩
  · norm_num [clientSalesTotal, clientA, saleW, List.filter_cons]
  · norm_num [clientSalesTotal, clientA, saleW, List.filter_cons]
  · norm_num [clientsHandleSubmitEdit, clientA]
  · norm_num

theorem upsertClientAgg_orders_pos (s : Sale) :
    ∀ (m : List ClientAgg), (∀ e ∈ m, 1 ≤ e.orders) →
      ∀ e ∈ upsertClientAgg s m, 1 ≤ e.orders := by
  intro m
  induction m with
  | nil =>
      intro _ e he
      simp only [upsertClientAgg, List.mem_singleton] at he
      simp [he]
  | cons a as ih =>
      intro hm e he
      by_cases hc : a.clientId = s.clientId
      · simp only [upsertClientAgg, if_pos hc, List.mem_cons] at he
        rcases he with he | he
        · simp [he]
        · exact hm e (List.mem_cons_of_mem _ he)
      · simp only [upsertClientAgg, if_neg hc, List.mem_cons] at he
        rcases he with he | he
        · exact he ▸ hm a (List.mem_cons_self _ _)
        · exact ih (fun x hx => hm x (List.mem_cons_of_mem _ hx)) e he

theorem foldl_upsertClientAgg_orders_pos :
    ∀ (sales : List Sale) (m : List ClientAgg), (∀ e ∈ m, 1 ≤ e.orders) →
      ∀ e ∈ sales.foldl (fun m s => upsertClientAgg s m) m, 1 ≤ e.orders := by
  intro sales
  induction sales with
  | nil =>
      intro m hm e he
      rw [List.foldl_nil] at he
      exact hm e he
  | cons s ss ih =>
      intro m hm e he
      rw [List.foldl_cons] at he
      exact ih _ (upsertClientAgg_orders_pos s m hm) e he

/-- C8: empty inputs yield the all-zero / all-empty dashboard summary, and
every division in the dashboard and analytics computations is safe: the
dashboard's daily average is guarded to 0 when `getDate()` is 0, the
analytics `avgSaleValue` is guarded to 0 when there are no filtered sales,
`daysInRange` is at least 1 by construction, and every per-client
aggregation entry has `orders ≥ 1` by construction wherever
`avgOrder = revenue / orders` is computed. -/
theorem dashboard_analytics_safety :
    (∀ now, (calculateDashboardStats [] [] [] now).1 = emptyDashboardStats) ∧
    (∀ products sales clients now, now.dayOfMonth = 0 →
      (calculateDashboardStats products sales clients now).1.avgDailySales = 0) ∧
    (∀ sales products days now,
      (analyticsData sales products days now).filteredSales.length = 0 →
      (analyticsData sales products days now).avgSaleValue = 0) ∧
    (∀ startDate endDate, 1 ≤ daysInRange startDate endDate) ∧
    (∀ sales products days now,
      ∀ e ∈ (analyticsData sales products days now).topClients, 1 ≤ e.orders) := by
  refine ⟨?_, ?_, ?_, ?_, ?_⟩
  · intro now
    simp [calculateDashboardStats, emptyDashboardStats, sortByDesc, groupItems,
      List.insertionSort]
  · intro products sales clients now h
    simp [calculateDashboardStats, h]
  · intro sales products days now h
    simp only [analyticsData] at h ⊢
    rw [h]
    simp
  · intro a b
    exact le_max_left _ _
  · intro sales products days now e he
    simp only [analyticsData] at he
    have he2 := List.mem_of_mem_take he
    have he3 := ((sortByDesc_perm ClientAgg.revenue _).mem_iff).1 he2
    exact foldl_upsertClientAgg_orders_pos _ [] (by simp) e he3

theorem dashboard_analytics_safety_witness :
    (calculateDashboardStats [] [] [] nowDay0).1.avgDailySales = 0 :=
  dashboard_analytics_safety.2.1 [] [] [] nowDay0 rfl

theorem runStockUpdates_allOk (snap : List Product) :
    ∀ (items : List SaleItem) (cur : List Product),
      runStockUpdates snap items [] cur =
        .ok (applyStockUpdates cur (stockUpdateEvents snap items)) := by
  intro items
  induction items with
  | nil => intro cur; rfl
  | cons it rest ih =>
      intro cur
      cases h : snap.find? (fun p => p.id == it.productId) with
      | none =>
          simp [runStockUpdates, h, stockUpdateEvents, List.filterMap_cons, ih]
      | some p =>
          simp [runStockUpdates, h, stockUpdateEvents, List.filterMap_cons,
            applyStockUpdates, ih]

theorem runStockUpdates_ok_state (snap : List Product) :
    ∀ (items : List SaleItem) (oks : List Bool) (cur ps : List Product),
      runStockUpdates snap items oks cur = .ok ps →
      ps = applyStockUpdates cur (stockUpdateEvents snap items) := by
  intro items
  induction items with
  | nil =>
      intro oks cur ps h
      simp only [runStockUpdates] at h
      cases h
      rfl
  | cons it rest ih =>
      intro oks cur ps h
      cases hf : snap.find? (fun p => p.id == it.productId) with
      | none =>
          simp only [runStockUpdates, hf] at h
          simpa [stockUpdateEvents, List.filterMap_cons, hf] using ih _ _ _ h
      | some p =>
          simp only [runStockUpdates, hf] at h
          cases hok : oks.headD true with
          | false => rw [hok] at h; simp at h
          | true =>
              rw [hok] at h
              simp only [if_true] at h
              simpa [stockUpdateEvents, List.filterMap_cons, hf,
                applyStockUpdates] using ih _ _ _ h

theorem runStockUpdates_error_state (snap : List Product) :
    ∀ (items : List SaleItem) (oks : List Bool) (cur ps : List Product),
      runStockUpdates snap items oks cur = .error ps →
      ∃ done itFail rest, items = done ++ itFail :: rest ∧
        (snap.find? (fun q => q.id == itFail.productId)).isSome = true ∧
        (oks.drop (countFound snap done)).headD true = false ∧
        ps = applyStockUpdates cur (stockUpdateEvents snap done) := by
  intro items
  induction items with
  | nil => intro oks cur ps h; simp [runStockUpdates] at h
  | cons it rest ih =>
      intro oks cur ps h
      cases hf : snap.find? (fun p => p.id == it.productId) with
      | none =>
          simp only [runStockUpdates, hf] at h
          obtain ⟨done, itF, rest', hsp, hfound, hokf, hps⟩ := ih _ _ _ h
          have hcount : countFound snap (it :: done) = countFound snap done := by
            simp [countFound, List.filter_cons, hf]
          refine ⟨it :: done, itF, rest', by simp [hsp], hfound, ?_, ?_⟩
          · rw [hcount]; exact hokf
          · simpa [stockUpdateEvents, List.filterMap_cons, hf] using hps
      | some p =>
          simp only [runStockUpdates, hf] at h
          cases hok : oks.headD true with
          | false =>
              rw [hok] at h
              have h' : cur = ps := by simpa using h
              refine ⟨[], it, rest, rfl, by simp [hf], ?_, h'.symm⟩
              simpa [countFound] using hok
          | true =>
              rw [hok] at h
              simp only [if_true] at h
              obtain ⟨done, itF, rest', hsp, hfound, hokf, hps⟩ := ih _ _ _ h
              have hcount : countFound snap (it :: done) =
                  countFound snap done + 1 := by
                simp [countFound, List.filter_cons, hf]
              have hdrop : oks.drop (countFound snap done + 1) =
                  oks.tail.drop (countFound snap done) := by
                cases oks with
                | nil => simp
                | cons b bs => rfl
              refine ⟨it :: done, itF, rest', by simp [hsp], hfound, ?_, ?_⟩
              · rw [hcount, hdrop]; exact hokf
              · simpa [stockUpdateEvents, List.filterMap_cons, hf,
                  applyStockUpdates] using hps

/-- C1: for every sale created through `addSale`, the operation succeeds and
the resulting product state is exactly the application, in order, of one
stock update per sale item whose `productId` is found in the call-time
product collection — each setting that product's `currentStock` to the
call-time value minus the item's quantity, as plain integer subtraction
with no clamping at zero — while items whose product is not found are
skipped silently (they contribute no update and raise no error). -/
theorem addSale_stock_updates (db : DB) (s : SaleInput) (newId : String) (t : Int) :
    ∃ db' sale, addSale db s newId t allOk = .ok (db', sale) ∧
      db'.products =
        applyStockUpdates db.products (stockUpdateEvents db.products s.items) ∧
      sale = mkNewSale s newId t := by
  have hrun := runStockUpdates_allOk db.products s.items db.products
  cases hc : db.clients.find? (fun c => c.id == s.clientId) with
  | none =>
      refine ⟨⟨applyStockUpdates db.products (stockUpdateEvents db.products s.items),
        db.clients, mkNewSale s newId t :: db.sales⟩, mkNewSale s newId t,
        ?_, rfl, rfl⟩
      simp [addSale, allOk, hrun, hc]
  | some c =>
      refine ⟨⟨applyStockUpdates db.products (stockUpdateEvents db.products s.items),
        db.clients.map (fun x => if x.id = c.id then
          { c with totalPurchases := c.totalPurchases + s.finalAmount,
                   lastPurchaseDate := t } else x),
        mkNewSale s newId t :: db.sales⟩, mkNewSale s newId t, ?_, rfl, rfl⟩
      simp [addSale, allOk, hrun, hc]

/-- C2: `addSale` failure semantics — if the initial sale persistence fails,
the whole operation fails with the in-memory state completely unchanged.
If a later persistence call fails, the operation reports failure and the
state left behind is exactly everything applied before the failing call,
with no rollback or compensation: either some item's stock update is the
failing call — the item is split out as `itFail` (its product is found in
the snapshot and the outcome at its call index, `countFound done`, is the
failing one), the new sale is already prepended, precisely the updates of
the items before it are applied, and the client is untouched — or the
client update is the failing call, after every stock update was applied. -/
theorem addSale_failure_semantics (db : DB) (s : SaleInput) (newId : String)
    (t : Int) (oc : Oracle) :
    (oc.createOk = false → addSale db s newId t oc = .error db) ∧
    (oc.createOk = true → ∀ db', addSale db s newId t oc = .error db' →
      db'.sales = mkNewSale s newId t :: db.sales ∧
      db'.clients = db.clients ∧
      ((∃ done itFail rest, s.items = done ++ itFail :: rest ∧
          (db.products.find? (fun q => q.id == itFail.productId)).isSome = true ∧
          (oc.itemOks.drop (countFound db.products done)).headD true = false ∧
          db'.products =
            applyStockUpdates db.products (stockUpdateEvents db.products done)) ∨
        (oc.clientOk = false ∧
          (db.clients.find? (fun c => c.id == s.clientId)).isSome = true ∧
          db'.products =
            applyStockUpdates db.products
              (stockUpdateEvents db.products s.items)))) := by
  constructor
  · intro h
    simp [addSale, h]
  · intro h db' herr
    simp only [addSale, h, if_true] at herr
    cases hrun : runStockUpdates db.products s.items oc.itemOks db.products with
    | error ps =>
        rw [hrun] at herr
        simp only [Except.error.injEq] at herr
        obtain ⟨done, itF, rest, hsp, hfound, hok, hps⟩ :=
          runStockUpdates_error_state _ _ _ _ _ hrun
        subst herr
        exact ⟨rfl, rfl, Or.inl ⟨done, itF, rest, hsp, hfound, hok, hps⟩⟩
    | ok ps =>
        rw [hrun] at herr
        have hps := runStockUpdates_ok_state _ _ _ _ _ hrun
        cases hc : db.clients.find? (fun c => c.id == s.clientId) with
        | some c =>
            rw [hc] at herr
            cases hcl : oc.clientOk with
            | true => rw [hcl] at herr; simp at herr
            | false =>
                rw [hcl] at herr
                simp only [Bool.false_eq_true, if_false, Except.error.injEq] at herr
                subst herr
                exact ⟨rfl, rfl, Or.inr ⟨rfl, by simp [hc], hps⟩⟩
        | none =>
            rw [hc] at herr
            simp at herr

theorem addSale_failure_semantics_witness :
    (addSale dbW saleInputW "s9" 7 ⟨false, [], true⟩ = .error dbW) ∧
    (addSale dbW saleInputW "s9" 7 ⟨true, [true, false], true⟩ = .error dbFail) ∧
    (dbFail.sales = mkNewSale saleInputW "s9" 7 :: dbW.sales ∧
      dbFail.clients = dbW.clients ∧
      ((∃ done itFail rest, saleInputW.items = done ++ itFail :: rest ∧
          (dbW.products.find? (fun q => q.id == itFail.productId)).isSome = true ∧
          ((⟨true, [true, false], true⟩ : Oracle).itemOks.drop
            (countFound dbW.products done)).headD true = false ∧
          dbFail.products =
            applyStockUpdates dbW.products (stockUpdateEvents dbW.products done)) ∨
        ((⟨true, [true, false], true⟩ : Oracle).clientOk = false ∧
          (dbW.clients.find? (fun c => c.id == saleInputW.clientId)).isSome = true ∧
          dbFail.products =
            applyStockUpdates dbW.products
              (stockUpdateEvents dbW.products saleInputW.items)))) :=
  ⟨(addSale_failure_semantics dbW saleInputW "s9" 7 ⟨false, [], true⟩).1 rfl,
    rfl,
    (addSale_failure_semantics dbW saleInputW "s9" 7
      ⟨true, [true, false], true⟩).2 rfl dbFail rfl⟩

/-- C3: for every sale created through `addSale` with every persistence call
succeeding — if a client with the sale's `clientId` is found in the
in-memory client collection, that client's `totalPurchases` is increased by
the sale's `finalAmount` and `lastPurchaseDate` is set to the persisted
sale's `createdAt`; if no such client is found, the client collection is
left untouched, the operation still completes without error, and the sale
is recorded with its original `finalAmount`. -/
theorem addSale_client_update (db : DB) (s : SaleInput) (newId : String) (t : Int) :
    (∀ c, db.clients.find? (fun c => c.id == s.clientId) = some c →
      ∃ db' sale, addSale db s newId t allOk = .ok (db', sale) ∧
        db'.clients = db.clients.map (fun x => if x.id = c.id then
          { c with totalPurchases := c.totalPurchases + s.finalAmount,
                   lastPurchaseDate := t } else x) ∧
        sale.createdAt = t ∧ sale.finalAmount = s.finalAmount) ∧
    (db.clients.find? (fun c => c.id == s.clientId) = none →
      ∃ db' sale, addSale db s newId t allOk = .ok (db', sale) ∧
        db'.clients = db.clients ∧ sale ∈ db'.sales ∧
        sale.finalAmount = s.finalAmount) := by
  have hrun := runStockUpdates_allOk db.products s.items db.products
  constructor
  · intro c hc
    refine ⟨⟨applyStockUpdates db.products (stockUpdateEvents db.products s.items),
      db.clients.map (fun x => if x.id = c.id then
        { c with totalPurchases := c.totalPurchases + s.finalAmount,
                 lastPurchaseDate := t } else x),
      mkNewSale s newId t :: db.sales⟩, mkNewSale s newId t, ?_, rfl, rfl, rfl⟩
    simp [addSale, allOk, hrun, hc]
  · intro hc
    refine ⟨⟨applyStockUpdates db.products (stockUpdateEvents db.products s.items),
      db.clients, mkNewSale s newId t :: db.sales⟩, mkNewSale s newId t,
      ?_, rfl, List.mem_cons_self _ _, rfl⟩
    simp [addSale, allOk, hrun, hc]

theorem addSale_client_update_witness :
    ∃ db' sale, addSale dbW saleInputW "s9" 7 allOk = .ok (db', sale) ∧
      db'.clients = dbW.clients.map (fun x => if x.id = clientA.id then
        { clientA with
            totalPurchases := clientA.totalPurchases + saleInputW.finalAmount,
            lastPurchaseDate := 7 } else x) ∧
      sale.createdAt = 7 ∧ sale.finalAmount = saleInputW.finalAmount :=
  (addSale_client_update dbW saleInputW "s9" 7).1 clientA rfl

theorem getLast?_cons_of_getLast?_some {α : Type} {l : List α} {y : α} (x : α)
    (h : l.getLast? = some y) : (x :: l).getLast? = some y := by
  cases l with
  | nil => simp at h
  | cons a as => rw [List.getLast?_cons_cons]; exact h

theorem stockUpdateEvents_cons_found {snap : List Product} {it : SaleItem}
    {p : Product} (h : snap.find? (fun q => q.id == it.productId) = some p)
    (rest : List SaleItem) :
    stockUpdateEvents snap (it :: rest) =
      (it.productId, p.currentStock - (it.quantity : Int)) ::
        stockUpdateEvents snap rest := by
  simp [stockUpdateEvents, List.filterMap_cons, h]

theorem stockUpdateEvents_cons_missing {snap : List Product} {it : SaleItem}
    (h : snap.find? (fun q => q.id == it.productId) = none)
    (rest : List SaleItem) :
    stockUpdateEvents snap (it :: rest) = stockUpdateEvents snap rest := by
  simp [stockUpdateEvents, List.filterMap_cons, h]

theorem find?_setStock (ps : List Product) (pid : String) (v : Int) (x : String) :
    (setStock ps pid v).find? (fun q => q.id == x) =
      (ps.find? (fun q => q.id == x)).map
        (fun p => if p.id = pid then { p with currentStock := v } else p) := by
  unfold setStock
  have hpred : ((fun q : Product => q.id == x) ∘
      (fun p => if p.id = pid then { p with currentStock := v } else p)) =
      fun q : Product => q.id == x := by
    funext p
    by_cases hc : p.id = pid <;> simp [hc, Function.comp]
  rw [List.find?_map, hpred]

theorem find?_applyStockUpdates (x : String) :
    ∀ (evs : List (String × Int)) (cur : List Product),
      (applyStockUpdates cur evs).find? (fun q => q.id == x) =
        (cur.find? (fun q => q.id == x)).map
          (fun p => evs.foldl
            (fun q ev => if q.id = ev.1 then { q with currentStock := ev.2 } else q)
            p) := by
  intro evs
  induction evs with
  | nil =>
      intro cur
      simp [applyStockUpdates]
  | cons ev evs ih =>
      intro cur
      have h1 : applyStockUpdates cur (ev :: evs) =
          applyStockUpdates (setStock cur ev.1 ev.2) evs := rfl
      rw [h1, ih, find?_setStock, Option.map_map]
      congr 1

theorem foldl_setStock_point (evs : List (String × Int)) (p : Product) :
    evs.foldl (fun q ev => if q.id = ev.1 then { q with currentStock := ev.2 } else q)
        p =
      { p with currentStock :=
          evs.foldl (fun s ev => if p.id = ev.1 then ev.2 else s) p.currentStock } := by
  induction evs generalizing p with
  | nil => rfl
  | cons ev evs ih =>
      by_cases hc : p.id = ev.1
      · rw [List.foldl_cons, List.foldl_cons, if_pos hc, if_pos hc, ih]
      · rw [List.foldl_cons, List.foldl_cons, if_neg hc, if_neg hc, ih]

theorem foldl_lastChoice {α β : Type} (P : α → Prop) [DecidablePred P] (f : α → β) :
    ∀ (l : List α) (b : β),
      l.foldl (fun s x => if P x then f x else s) b =
        ((l.filter (fun x => decide (P x))).getLast?).elim b f := by
  intro l
  induction l with
  | nil => intro b; rfl
  | cons x xs ih =>
      intro b
      by_cases hp : P x
      · rw [List.foldl_cons, if_pos hp, ih (f x)]
        rw [List.filter_cons, if_pos (by simpa using hp)]
        cases h : (xs.filter (fun x => decide (P x))).getLast? with
        | none =>
            have hnil : xs.filter (fun x => decide (P x)) = [] :=
              List.getLast?_eq_none_iff.mp h
            rw [hnil]
            rfl
        | some y =>
            rw [getLast?_cons_of_getLast?_some x h]
            rfl
      · rw [List.foldl_cons, if_neg hp, ih b]
        rw [List.filter_cons, if_neg (by simpa using hp)]

theorem find?_self_of_nodup :
    ∀ (ps : List Product) (p : Product),
      (ps.map Product.id).Nodup → p ∈ ps →
      ps.find? (fun q => q.id == p.id) = some p := by
  intro ps
  induction ps with
  | nil => intro p _ hmem; cases hmem
  | cons a as ih =>
      intro p hnd hmem
      simp only [List.map_cons, List.nodup_cons] at hnd
      obtain ⟨hna, hnd'⟩ := hnd
      rcases List.mem_cons.mp hmem with rfl | hmem'
      · exact List.find?_cons_of_pos _ (by simp)
      · have hne : ¬(a.id == p.id) = true := by
          simp only [beq_iff_eq]
          intro he
          exact hna (he ▸ List.mem_map_of_mem Product.id hmem')
        have hstep : List.find? (fun q : Product => q.id == p.id) (a :: as) =
            List.find? (fun q => q.id == p.id) as :=
          List.find?_cons_of_neg _ hne
        rw [hstep]
        exact ih p hnd' hmem'

theorem stockEvents_last (snap : List Product) (p : Product)
    (hfind : snap.find? (fun q => q.id == p.id) = some p) :
    ∀ (items : List SaleItem) (b : Int),
      (stockUpdateEvents snap items).foldl
          (fun s ev => if p.id = ev.1 then ev.2 else s) b =
        items.foldl
          (fun s it => if p.id = it.productId then
            p.currentStock - (it.quantity : Int) else s) b := by
  intro items
  induction items with
  | nil => intro b; rfl
  | cons it rest ih =>
      intro b
      by_cases hc : p.id = it.productId
      · have hf : snap.find? (fun q => q.id == it.productId) = some p := by
          rw [← hc]; exact hfind
        rw [stockUpdateEvents_cons_found hf, List.foldl_cons, List.foldl_cons,
          if_pos hc]
        exact ih _
      · cases hf : snap.find? (fun q => q.id == it.productId) with
        | none =>
            rw [stockUpdateEvents_cons_missing hf, List.foldl_cons, if_neg hc]
            exact ih b
        | some q =>
            rw [stockUpdateEvents_cons_found hf, List.foldl_cons, List.foldl_cons]
            simp only [if_neg hc]
            exact ih b

/-- C10: when a sale's item list mentions the same `productId` several times,
every lookup resolves against the call-time product snapshot, so each stock
update for that product is computed from the pre-sale stock; assuming
distinct product ids in the collection, a product present in it ends with
`currentStock` equal to its pre-sale stock minus the quantity of the *last*
item referencing it (pre-sale stock if no item references it) — not minus
the sum of all those items' quantities. -/
theorem addSale_duplicate_product_snapshot (db : DB) (s : SaleInput)
    (newId : String) (t : Int) (p : Product) (hmem : p ∈ db.products)
    (hnd : (db.products.map Product.id).Nodup) :
    ∃ db' sale, addSale db s newId t allOk = .ok (db', sale) ∧
      db'.products.find? (fun q => q.id == p.id) =
        some { p with
               currentStock :=
                 ((s.items.filter
                     (fun it => decide (p.id = it.productId))).getLast?).elim
                   p.currentStock
                   (fun itl => p.currentStock - (itl.quantity : Int)) } := by
  have hrun := runStockUpdates_allOk db.products s.items db.products
  have hfind := find?_self_of_nodup db.products p hnd hmem
  have key : (applyStockUpdates db.products
        (stockUpdateEvents db.products s.items)).find? (fun q => q.id == p.id) =
      some { p with
             currentStock :=
               ((s.items.filter
                   (fun it => decide (p.id = it.productId))).getLast?).elim
                 p.currentStock
                 (fun itl => p.currentStock - (itl.quantity : Int)) } := by
    rw [find?_applyStockUpdates, hfind, Option.map_some', foldl_setStock_point,
      stockEvents_last db.products p hfind,
      foldl_lastChoice (fun it : SaleItem => p.id = it.productId)
        (fun it => p.currentStock - (it.quantity : Int))]
  cases hc : db.clients.find? (fun c => c.id == s.clientId) with
  | none =>
      refine ⟨⟨applyStockUpdates db.products (stockUpdateEvents db.products s.items),
        db.clients, mkNewSale s newId t :: db.sales⟩, mkNewSale s newId t,
        ?_, key⟩
      simp [addSale, allOk, hrun, hc]
  | some c =>
      refine ⟨⟨applyStockUpdates db.products (stockUpdateEvents db.products s.items),
        db.clients.map (fun x => if x.id = c.id then
          { c with totalPurchases := c.totalPurchases + s.finalAmount,
                   lastPurchaseDate := t } else x),
        mkNewSale s newId t :: db.sales⟩, mkNewSale s newId t, ?_, key⟩
      simp [addSale, allOk, hrun, hc]

theorem addSale_duplicate_product_snapshot_witness :
    (∃ db' sale, addSale dbDup saleInputDup "s7" 3 allOk = .ok (db', sale) ∧
      db'.products.find? (fun q => q.id == prodA.id) =
        some { prodA with
               currentStock :=
                 ((saleInputDup.items.filter
                     (fun it => decide (prodA.id = it.productId))).getLast?).elim
                   prodA.currentStock
                   (fun itl => prodA.currentStock - (itl.quantity : Int)) }) ∧
    ((saleInputDup.items.filter
        (fun it => decide (prodA.id = it.productId))).getLast?).elim
      prodA.currentStock (fun itl => prodA.currentStock - (itl.quantity : Int)) = 7 :=
  ⟨addSale_duplicate_product_snapshot dbDup saleInputDup "s7" 3 prodA
      (by simp [dbDup]) (by simp [dbDup]),
    by decide⟩

theorem getAgg_cons (e : TopProductEntry) (m : List TopProductEntry) (pid : String) :
    getAgg (e :: m) pid = if e.productId = pid then some e else getAgg m pid := by
  by_cases hc : e.productId = pid <;> simp [getAgg, List.find?_cons, hc]

theorem getAgg_upsert_self (it : SaleItem) :
    ∀ (m : List TopProductEntry),
      getAgg (upsertTopProduct it m) it.productId =
        some (match getAgg m it.productId with
              | some e => ⟨e.productId, it.productName,
                  e.quantitySold + it.quantity, e.revenue + it.totalPrice⟩
              | none => ⟨it.productId, it.productName, it.quantity,
                  it.totalPrice⟩) := by
  intro m
  induction m with
  | nil => simp [upsertTopProduct, getAgg_cons, getAgg]
  | cons e es ih =>
      by_cases hc : e.productId = it.productId
      · simp [upsertTopProduct, hc, getAgg_cons]
      · simp [upsertTopProduct, hc, getAgg_cons, ih]

theorem getAgg_upsert_other (it : SaleItem) (pid : String)
    (hne : pid ≠ it.productId) :
    ∀ m, getAgg (upsertTopProduct it m) pid = getAgg m pid := by
  intro m
  induction m with
  | nil => simp [upsertTopProduct, getAgg_cons, getAgg, Ne.symm hne]
  | cons e es ih =>
      by_cases hc : e.productId = it.productId
      · have hce : e.productId ≠ pid := by rw [hc]; exact Ne.symm hne
        simp [upsertTopProduct, hc, getAgg_cons, hce, Ne.symm hne]
      · simp [upsertTopProduct, hc, getAgg_cons, ih]

theorem upsert_ids_mem (it : SaleItem) :
    ∀ (m : List TopProductEntry) (x : String),
      x ∈ (upsertTopProduct it m).map TopProductEntry.productId →
      x ∈ m.map TopProductEntry.productId ∨ x = it.productId := by
  intro m
  induction m with
  | nil =>
      intro x hx
      simp [upsertTopProduct] at hx
      exact Or.inr hx
  | cons e es ih =>
      intro x hx
      by_cases hc : e.productId = it.productId
      · simp only [upsertTopProduct, if_pos hc, List.map_cons, List.mem_cons] at hx
        rcases hx with hx | hx
        · exact Or.inl (by simp [hx])
        · exact Or.inl (by simp [hx])
      · simp only [upsertTopProduct, if_neg hc, List.map_cons, List.mem_cons] at hx
        rcases hx with hx | hx
        · exact Or.inl (by simp [hx])
        · rcases ih x hx with h | h
          · exact Or.inl (by simp [h])
          · exact Or.inr h

theorem upsert_ids_nodup (it : SaleItem) :
    ∀ (m : List TopProductEntry),
      (m.map TopProductEntry.productId).Nodup →
      ((upsertTopProduct it m).map TopProductEntry.productId).Nodup := by
  intro m
  induction m with
  | nil => intro _; simp [upsertTopProduct]
  | cons e es ih =>
      intro hnd
      simp only [List.map_cons, List.nodup_cons] at hnd
      obtain ⟨hna, hnd'⟩ := hnd
      by_cases hc : e.productId = it.productId
      · simp only [upsertTopProduct, if_pos hc, List.map_cons, List.nodup_cons]
        exact ⟨hna, hnd'⟩
      · simp only [upsertTopProduct, if_neg hc, List.map_cons, List.nodup_cons]
        refine ⟨?_, ih hnd'⟩
        intro hmem
        rcases upsert_ids_mem it es e.productId hmem with h | h
        · exact hna h
        · exact hc h

theorem groupItems_ids_nodup_aux :
    ∀ (items : List SaleItem) (m : List TopProductEntry),
      (m.map TopProductEntry.productId).Nodup →
      ((items.foldl (fun m it => upsertTopProduct it m) m).map
        TopProductEntry.productId).Nodup := by
  intro items
  induction items with
  | nil => intro m hm; simpa using hm
  | cons it rest ih =>
      intro m hm
      rw [List.foldl_cons]
      exact ih _ (upsert_ids_nodup it m hm)

theorem getAgg_self_of_mem :
    ∀ (m : List TopProductEntry) (e : TopProductEntry),
      (m.map TopProductEntry.productId).Nodup → e ∈ m →
      getAgg m e.productId = some e := by
  intro m
  induction m with
  | nil => intro e _ he; cases he
  | cons a as ih =>
      intro e hnd he
      simp only [List.map_cons, List.nodup_cons] at hnd
      obtain ⟨hna, hnd'⟩ := hnd
      rcases List.mem_cons.mp he with rfl | he'
      · rw [getAgg_cons, if_pos rfl]
      · have hne : a.productId ≠ e.productId := by
          intro h
          exact hna (h ▸ List.mem_map_of_mem TopProductEntry.productId he')
        rw [getAgg_cons, if_neg hne]
        exact ih e hnd' he'

theorem getAgg_groupItems :
    ∀ (items : List SaleItem) (pid : String),
      getAgg (groupItems items) pid =
        ((items.filter (fun it => it.productId == pid)).getLast?).map
          (fun itl =>
            (⟨pid, itl.productName,
              ((items.filter (fun it => it.productId == pid)).map
                SaleItem.quantity).sum,
              ((items.filter (fun it => it.productId == pid)).map
                SaleItem.totalPrice).sum⟩ : TopProductEntry)) := by
  intro items
  induction items using List.reverseRecOn with
  | nil => intro pid; rfl
  | append_singleton l it ih =>
      intro pid
      have hgroup : groupItems (l ++ [it]) = upsertTopProduct it (groupItems l) := by
        simp [groupItems, List.foldl_append]
      rw [hgroup]
      by_cases hc : it.productId = pid
      · subst hc
        have hfl : (l ++ [it]).filter (fun x => x.productId == it.productId) =
            l.filter (fun x => x.productId == it.productId) ++ [it] := by
          simp [List.filter_append]
        rw [getAgg_upsert_self, ih]
        cases h : (l.filter (fun x => x.productId == it.productId)).getLast? with
        | none =>
            have hnil := List.getLast?_eq_none_iff.mp h
            simp [hfl, hnil]
        | some y =>
            simp [hfl, List.getLast?_concat]
      · have hfl : (l ++ [it]).filter (fun x => x.productId == pid) =
            l.filter (fun x => x.productId == pid) := by
          simp [List.filter_append, hc]
        rw [getAgg_upsert_other it pid (Ne.symm hc), ih, hfl]

theorem upsert_qty_sum (it : SaleItem) :
    ∀ m, ((upsertTopProduct it m).map TopProductEntry.quantitySold).sum =
      (m.map TopProductEntry.quantitySold).sum + it.quantity := by
  intro m
  induction m with
  | nil => simp [upsertTopProduct]
  | cons e es ih =>
      by_cases hc : e.productId = it.productId
      · simp [upsertTopProduct, hc]
        omega
      · simp [upsertTopProduct, hc, ih]
        omega

theorem groupItems_qty_sum :
    ∀ (items : List SaleItem) (m : List TopProductEntry),
      ((items.foldl (fun m it => upsertTopProduct it m) m).map
        TopProductEntry.quantitySold).sum =
      (m.map TopProductEntry.quantitySold).sum +
        (items.map SaleItem.quantity).sum := by
  intro items
  induction items with
  | nil => intro m; simp
  | cons it rest ih =>
      intro m
      rw [List.foldl_cons, ih, upsert_qty_sum]
      simp only [List.map_cons, List.sum_cons]
      omega

theorem sortedSales_items_perm (sales : List Sale) :
    ((sortByDesc Sale.createdAt sales).flatMap Sale.items).Perm
      (sales.flatMap Sale.items) :=
  (sortByDesc_perm Sale.createdAt sales).flatMap_right Sale.items

/-- C6: the dashboard's `topProducts` groups all sale items by `productId`:
each returned entry's `quantitySold` (resp. `revenue`) is the sum of the
quantities (resp. of `totalPrice`) over all sale items with that
`productId`, and its display name is the one of the last-seen item for that
id in the order the code iterates (the sales array as sorted by the
preceding `recentSales` step); the entries are sorted non-increasing by
`quantitySold`, at most 5 are returned, and their `quantitySold` values sum
to at most the total quantity over all input sale items. -/
theorem dashboard_topProducts_spec (products : List Product) (sales : List Sale)
    (clients : List Client) (now : NowInfo) :
    (∀ e ∈ (calculateDashboardStats products sales clients now).1.topProducts,
      e.quantitySold =
        (((sales.flatMap Sale.items).filter
            (fun it => it.productId == e.productId)).map SaleItem.quantity).sum ∧
      e.revenue =
        (((sales.flatMap Sale.items).filter
            (fun it => it.productId == e.productId)).map SaleItem.totalPrice).sum ∧
      (∃ itl, (((sortByDesc Sale.createdAt sales).flatMap Sale.items).filter
            (fun it => it.productId == e.productId)).getLast? = some itl ∧
        e.productName = itl.productName)) ∧
    (calculateDashboardStats products sales clients now).1.topProducts.Pairwise
      (fun a b => b.quantitySold ≤ a.quantitySold) ∧
    (calculateDashboardStats products sales clients now).1.topProducts.length ≤ 5 ∧
    ((calculateDashboardStats products sales clients now).1.topProducts.map
      TopProductEntry.quantitySold).sum ≤
      ((sales.flatMap Sale.items).map SaleItem.quantity).sum := by
  have htop : (calculateDashboardStats products sales clients now).1.topProducts =
      (sortByDesc TopProductEntry.quantitySold
        (groupItems ((sortByDesc Sale.createdAt sales).flatMap Sale.items))).take 5 :=
    rfl
  refine ⟨?_, ?_, ?_, ?_⟩
  · intro e he
    rw [htop] at he
    have he2 : e ∈ groupItems ((sortByDesc Sale.createdAt sales).flatMap Sale.items) :=
      ((sortByDesc_perm TopProductEntry.quantitySold _).mem_iff).1
        (List.mem_of_mem_take he)
    have hnd : ((groupItems ((sortByDesc Sale.createdAt sales).flatMap
        Sale.items)).map TopProductEntry.productId).Nodup :=
      groupItems_ids_nodup_aux _ [] (by simp)
    have hself := getAgg_self_of_mem _ e hnd he2
    rw [getAgg_groupItems] at hself
    cases hlast : ((((sortByDesc Sale.createdAt sales).flatMap Sale.items)).filter
        (fun it => it.productId == e.productId)).getLast? with
    | none => rw [hlast] at hself; simp at hself
    | some itl =>
        rw [hlast] at hself
        simp only [Option.map_some', Option.some.injEq] at hself
        have hpermQ : (((((sortByDesc Sale.createdAt sales).flatMap
            Sale.items)).filter (fun it => it.productId == e.productId)).map
              SaleItem.quantity).sum =
            (((sales.flatMap Sale.items).filter
              (fun it => it.productId == e.productId)).map SaleItem.quantity).sum :=
          (((sortedSales_items_perm sales).filter _).map _).sum_eq
        have hpermR : (((((sortByDesc Sale.createdAt sales).flatMap
            Sale.items)).filter (fun it => it.productId == e.productId)).map
              SaleItem.totalPrice).sum =
            (((sales.flatMap Sale.items).filter
              (fun it => it.productId == e.productId)).map SaleItem.totalPrice).sum :=
          (((sortedSales_items_perm sales).filter _).map _).sum_eq
        refine ⟨?_, ?_, itl, rfl, ?_⟩
        · rw [← hself]
          exact hpermQ
        · rw [← hself]
          exact hpermR
        · rw [← hself]
  · rw [htop]
    exact (sortByDesc_pairwise TopProductEntry.quantitySold _).sublist
      (List.take_sublist 5 _)
  · rw [htop]
    exact List.length_take_le 5 _
  · rw [htop]
    have h1 : (((sortByDesc TopProductEntry.quantitySold
        (groupItems ((sortByDesc Sale.createdAt sales).flatMap
          Sale.items))).take 5).map TopProductEntry.quantitySold).sum ≤
        ((sortByDesc TopProductEntry.quantitySold
          (groupItems ((sortByDesc Sale.createdAt sales).flatMap
            Sale.items))).map TopProductEntry.quantitySold).sum := by
      rw [List.map_take]
      conv_rhs =>
        rw [← List.take_append_drop 5 ((sortByDesc TopProductEntry.quantitySold
          (groupItems ((sortByDesc Sale.createdAt sales).flatMap
            Sale.items))).map TopProductEntry.quantitySold)]
      rw [List.sum_append]
      exact Nat.le_add_right _ _
    have h2 : ((sortByDesc TopProductEntry.quantitySold
        (groupItems ((sortByDesc Sale.createdAt sales).flatMap
          Sale.items))).map TopProductEntry.quantitySold).sum =
        ((groupItems ((sortByDesc Sale.createdAt sales).flatMap
          Sale.items)).map TopProductEntry.quantitySold).sum :=
      ((sortByDesc_perm _ _).map _).sum_eq
    have h3 : ((groupItems ((sortByDesc Sale.createdAt sales).flatMap
        Sale.items)).map TopProductEntry.quantitySold).sum =
        (((sortByDesc Sale.createdAt sales).flatMap Sale.items).map
          SaleItem.quantity).sum := by
      have h := groupItems_qty_sum
        ((sortByDesc Sale.createdAt sales).flatMap Sale.items) []
      simpa [groupItems] using h
    have h4 : (((sortByDesc Sale.createdAt sales).flatMap Sale.items).map
        SaleItem.quantity).sum =
        ((sales.flatMap Sale.items).map SaleItem.quantity).sum :=
      ((sortedSales_items_perm sales).map _).sum_eq
    omega

theorem dashboard_topProducts_spec_witness :
    (⟨"p1", "Paracetamol", 2, 20⟩ : TopProductEntry).quantitySold =
      ((([saleW].flatMap Sale.items).filter
          (fun it => it.productId == "p1")).map SaleItem.quantity).sum ∧
    (⟨"p1", "Paracetamol", 2, 20⟩ : TopProductEntry).revenue =
      ((([saleW].flatMap Sale.items).filter
          (fun it => it.productId == "p1")).map SaleItem.totalPrice).sum ∧
    (∃ itl, (((sortByDesc Sale.createdAt [saleW]).flatMap Sale.items).filter
          (fun it => it.productId == "p1")).getLast? = some itl ∧
      (⟨"p1", "Paracetamol", 2, 20⟩ : TopProductEntry).productName =
        itl.productName) :=
  (dashboard_topProducts_spec [] [saleW] [] nowPlain).1
    ⟨"p1", "Paracetamol", 2, 20⟩ (by decide)
